import Mathlib

/-!
Shallow embedding of the rs-af_packet packet-capture library
(src/src/rx/mod.rs, src/src/socket.rs, src/src/tpacket3.rs).

Machine integers (u16/u32) are modelled as `Nat`, with `% 2 ^ 32` inserted
exactly where the Rust release-mode arithmetic can wrap.  Fallible code
(Rust panics from `assert!` and from division by zero, and `Result`-returning
functions) is modelled with `Except String`.  Kernel side effects (syscalls)
are modelled by passing their observable results in explicitly, and by
recording the values the library writes (socket options, fan-out id) in
returned records.
-/

namespace AFPacket

/-- `TP_STATUS_KERNEL` from src/tpacket3.rs. -/
def TP_STATUS_KERNEL : Nat := 0

/-- `TP_STATUS_USER` from src/tpacket3.rs. -/
def TP_STATUS_USER : Nat := 1

/-- `TPACKET_V3` from src/tpacket3.rs. -/
def TPACKET_V3 : Nat := 2

/-- `PACKET_FANOUT_HASH` from src/rx/mod.rs (a nonnegative `c_int`). -/
def PACKET_FANOUT_HASH : Nat := 0

/-- `PACKET_FANOUT_LB` from src/rx/mod.rs. -/
def PACKET_FANOUT_LB : Nat := 1

/-- `PACKET_FANOUT_CPU` from src/rx/mod.rs. -/
def PACKET_FANOUT_CPU : Nat := 2

/-- `TpacketReq3` from src/tpacket3.rs: the seven u32 ring-configuration
fields. -/
structure TpacketReq3 where
  tp_block_size : Nat
  tp_block_nr : Nat
  tp_frame_size : Nat
  tp_frame_nr : Nat
  tp_retire_blk_tov : Nat
  tp_sizeof_priv : Nat
  tp_feature_req_word : Nat
deriving Repr, DecidableEq

/-- `impl Default for TpacketReq3` from src/tpacket3.rs
(`TP_FT_REQ_FILL_RXHASH = 1`). -/
def TpacketReq3.default : TpacketReq3 :=
  { tp_block_size := 32768
    tp_block_nr := 10000
    tp_frame_size := 2048
    tp_frame_nr := 160000
    tp_retire_blk_tov := 100
    tp_sizeof_priv := 0
    tp_feature_req_word := 1 }

/-- The pure configuration state of `RingBuilder` from src/rx/mod.rs
(the socket handle itself is passed separately where needed). -/
structure RingBuilder where
  promiscuous : Bool
  fanout_method : Nat
  opts : TpacketReq3
deriving Repr, DecidableEq

/-- The values `RingBuilder::prepare_socket` (src/rx/mod.rs lines 123-161)
computes and hands to the kernel: the updated request (with the derived
`tp_frame_nr`), the `PACKET_VERSION` value, and the `PACKET_FANOUT` id. -/
structure SetupRecord where
  new_opts : TpacketReq3
  packet_version : Nat
  fanout_id : Nat
deriving Repr, DecidableEq

/-- The pure computation inside `RingBuilder::prepare_socket`
(src/rx/mod.rs):

* `tp_frame_nr = (tp_block_size * tp_block_nr) / tp_frame_size`, the u32
  multiplication wrapping modulo `2 ^ 32` and the u32 division panicking
  when `tp_frame_size = 0` (modelled as `Except.error`);
* `fanout = (getpid() & 0xFFFF) | (PACKET_FANOUT_HASH << 16)` — note the
  source hardcodes `PACKET_FANOUT_HASH` here and never reads
  `self.fanout_method` (`pid` is the nonnegative value of `getpid()`). -/
def RingBuilder.prepare_socket (b : RingBuilder) (pid : Nat) :
    Except String SetupRecord :=
  if b.opts.tp_frame_size = 0 then
    Except.error "attempt to divide by zero"
  else
    Except.ok
      { new_opts :=
          { b.opts with
              tp_frame_nr :=
                b.opts.tp_block_size * b.opts.tp_block_nr % 2 ^ 32 /
                  b.opts.tp_frame_size }
        packet_version := TPACKET_V3
        fanout_id := (pid &&& 0xFFFF) ||| (PACKET_FANOUT_HASH <<< 16) }

/-- `Socket` from src/socket.rs (fd, interface name, interface index,
socket type). -/
structure Socket where
  fd : Int
  if_name : String
  if_index : Nat
  sock_type : Int
deriving Repr, DecidableEq

/-- Observable results of the two syscalls made by `Socket::from_if_name`:
the descriptor returned by `socket(2)` (negative on failure) and the index
returned by `if_nametoindex(3)` (0 on failure). -/
structure SysEnv where
  socket_ret : Int
  if_nametoindex_ret : Nat
deriving Repr, DecidableEq

/-- Whether `CString::new(name)` fails: the name contains an interior NUL
byte. -/
def hasInteriorNul (name : String) : Bool :=
  name.toList.contains (Char.ofNat 0)

/-- `get_if_index` from src/socket.rs lines 198-202: builds a `CString`
(error on interior NUL), calls `if_nametoindex`, and returns the index
unconditionally — the 0 failure return of `if_nametoindex` is NOT checked. -/
def get_if_index (env : SysEnv) (name : String) : Except String Nat :=
  if hasInteriorNul name then Except.error "nul byte found in provided data"
  else Except.ok env.if_nametoindex_ret

/-- `Socket::from_if_name` from src/socket.rs lines 98-111: opens the
descriptor (error when `socket(2)` returns a negative value), then fills
the `Socket` with the result of `get_if_index`. -/
def Socket.from_if_name (env : SysEnv) (if_name : String) (socket_type : Int) :
    Except String Socket :=
  if env.socket_ret < 0 then Except.error "os error"
  else
    match get_if_index env if_name with
    | Except.error e => Except.error e
    | Except.ok idx =>
        Except.ok
          { fd := env.socket_ret
            if_name := if_name
            if_index := idx
            sock_type := socket_type }

/-- The cursor-relevant state of `Ring` from src/rx/mod.rs (the block
statuses live in shared memory the kernel writes; they are passed to each
operation as a function from block index to status word). -/
structure RingState where
  cur_idx : Nat
  tp_block_nr : Nat
deriving Repr, DecidableEq

/-- `RawBlock::is_ready` from src/rx/mod.rs lines 355-358:
`(block_status & TP_STATUS_USER) != 0`. -/
def is_ready (status : Nat) : Bool :=
  status &&& TP_STATUS_USER != 0

/-- `Ring::check_current_block` from src/rx/mod.rs lines 319-329: when the
block at the cursor is ready, advance the cursor by one modulo
`tp_block_nr` and return the old cursor's block; otherwise change nothing.
(`cur_idx + 1` cannot wrap in u32 because `cur_idx < tp_block_nr ≤
2 ^ 32 - 1` throughout; theorems assume `0 < tp_block_nr`, without which the
Rust `%` would panic.) -/
def check_current_block (statuses : Nat → Nat) (r : RingState) :
    Option Nat × RingState :=
  if is_ready (statuses r.cur_idx) then
    (some r.cur_idx, { r with cur_idx := (r.cur_idx + 1) % r.tp_block_nr })
  else
    (none, r)

/-- A run of `check_current_block` steps (the checks performed by a sequence
of `recv_block` loops, src/rx/mod.rs lines 257-265); each element of `envs`
is the snapshot of block statuses at that check.  Returns the number of
checks that handed a block out, together with the final state.  A successful
`recv_block` call is exactly one successful check (its preceding failed
checks leave the state unchanged). -/
def runChecks : RingState → List (Nat → Nat) → Nat × RingState
  | r, [] => (0, r)
  | r, sts :: rest =>
    match check_current_block sts r with
    | (res, r') =>
      let p := runChecks r' rest
      ((if res.isSome then 1 else 0) + p.1, p.2)

/-- The stride used by `Ring::buffer_saturation_threshold`
(src/rx/mod.rs lines 277-284): `tp_block_nr * step_percent / 100` computed
exactly in u64, replaced by 1 when zero. -/
def satStep (tp_block_nr step_percent : Nat) : Nat :=
  let step := tp_block_nr * step_percent / 100
  if step = 0 then 1 else step

/-- The `while` loop of `Ring::buffer_saturation_threshold`
(src/rx/mod.rs lines 286-301), as a fuel recursion; `fuel = tp_block_nr`
suffices because `n` strictly increases each iteration (`step ≥ 1`) and the
loop stops once `n` reaches `tp_block_nr`.  Index arithmetic is u32, so the
addition wraps modulo `2 ^ 32` before the `% B`. -/
def satLoop (statuses : Nat → Nat) (B step : Nat) :
    Nat → Nat → Nat → Nat
  | 0, n, _ => n
  | fuel + 1, n, idx =>
    if n < B then
      let n2 := if n + step > B then B else n + step
      if is_ready (statuses idx) then
        satLoop statuses B step fuel n2 ((idx + step) % 2 ^ 32 % B)
      else n2
    else n

/-- `Ring::buffer_saturation_threshold` from src/rx/mod.rs lines 275-303.
The `assert!(step_percent < 50)` is modelled as `Except.error`; the final
`(n * 100 / tp_block_nr) as u8` performs the multiplication in u32 (wrap
modulo `2 ^ 32`) and the cast truncates modulo `2 ^ 8`. -/
def buffer_saturation_threshold (statuses : Nat → Nat) (r : RingState)
    (step_percent : Nat) : Except String Nat :=
  if ¬ step_percent < 50 then Except.error "assertion failed"
  else
    let B := r.tp_block_nr
    let step := satStep B step_percent
    let n := satLoop statuses B step B 0 ((r.cur_idx + step) % 2 ^ 32 % B)
    Except.ok (n * 100 % 2 ^ 32 / B % 2 ^ 8)

/-- The number of consecutive probes at stride `step` (indices
`idx, idx + step, idx + 2 * step, …`, u32-wrapped then reduced mod `B`) that
find a USER-owned block before the first KERNEL-owned one, examining at most
`fuel` probes.  This is the count the saturation loop's result is expressed
with. -/
def probeCount (statuses : Nat → Nat) (B step : Nat) :
    Nat → Nat → Nat
  | _, 0 => 0
  | idx, fuel + 1 =>
    if is_ready (statuses idx) then
      probeCount statuses B step ((idx + step) % 2 ^ 32 % B) fuel + 1
    else 0

/-- `TpacketHdrVariant1` from src/tpacket3.rs. -/
structure TpacketHdrVariant1 where
  tp_rxhash : Nat
  tp_vlan_tci : Nat
  tp_vlan_tpid : Nat
deriving Repr, DecidableEq

/-- `Tpacket3Hdr` from src/tpacket3.rs (padding omitted; u32/u16 fields as
`Nat`). -/
structure Tpacket3Hdr where
  tp_next_offset : Nat
  tp_sec : Nat
  tp_nsec : Nat
  tp_snaplen : Nat
  tp_len : Nat
  tp_status : Nat
  tp_mac : Nat
  tp_net : Nat
  hv1 : TpacketHdrVariant1
deriving Repr, DecidableEq

/-- `TpacketBDTS` from src/tpacket3.rs. -/
structure TpacketBDTS where
  ts_sec : Nat
  ts_nsec : Nat
deriving Repr, DecidableEq

/-- `TpacketBDHeader` from src/tpacket3.rs. -/
structure TpacketBDHeader where
  block_status : Nat
  num_pkts : Nat
  offset_to_first_pkt : Nat
  blk_len : Nat
  seq_num : Nat
  ts_first_pkt : TpacketBDTS
  ts_last_pkt : TpacketBDTS
deriving Repr, DecidableEq

/-- `TpacketBlockDesc` from src/tpacket3.rs. -/
structure TpacketBlockDesc where
  version : Nat
  offset_to_priv : Nat
  hdr : TpacketBDHeader
deriving Repr, DecidableEq

/-- A block's data slice.  `bytes` is the `raw_data` slice (of length
`blk_len`, per `Block::from` in src/rx/mod.rs lines 422-431); `hdrAt o` is
the `Tpacket3Hdr` obtained by the source's pointer transmute of
`&raw_data[o..]` — the header the block's bytes encode at offset `o`.
The byte-level decoding of the C struct is abstracted into this field. -/
structure BlockData where
  bytes : List Nat
  hdrAt : Nat → Tpacket3Hdr

/-- `RawPacket` from src/rx/mod.rs lines 522-537: the packet's header and
its payload slice (`payload()` returns the slice the iterator built). -/
structure RawPacket where
  header : Tpacket3Hdr
  payload : List Nat
deriving Repr, DecidableEq

/-- `Block` from src/rx/mod.rs lines 361-420: the block descriptor plus the
`raw_data` slice. -/
structure Block where
  desc : TpacketBlockDesc
  raw_data : BlockData

/-- `Block::consume` from src/rx/mod.rs lines 379-382: write
`TP_STATUS_KERNEL` into the descriptor's status word. -/
def Block.consume (b : Block) : Block :=
  { b with
      desc :=
        { b.desc with
            hdr := { b.desc.hdr with block_status := TP_STATUS_KERNEL } } }

/-- `RawPacketIter` from src/rx/mod.rs lines 433-442. -/
structure RawPacketIter where
  raw_data : BlockData
  next_offset : Nat
  cur_next_offset : Option Nat
  cur_idx : Nat
  count : Nat

/-- `RawPacketIter::is_last` from src/rx/mod.rs lines 444-446. -/
def RawPacketIter.is_last (it : RawPacketIter) : Bool :=
  it.cur_idx == it.count

/-- `RawPacketIter::current` from src/rx/mod.rs lines 447-478.  Returns
`none` when iteration is complete; the four `assert!`s are modelled as
`Except.error`.  On success it leaves `next_offset` and `cur_idx` untouched
and stores the precomputed subsequent offset in `cur_next_offset`: the
block's data length (the sentinel) for the last record, and
`offset + tp_next_offset` otherwise.  The payload is the slice
`&raw_data[offset + tp_mac ..]`, which runs to the end of the block data. -/
def RawPacketIter.current (it : RawPacketIter) :
    Except String (Option RawPacket × RawPacketIter) :=
  if it.cur_idx ≥ it.count then Except.ok (none, it)
  else if it.next_offset = 0 then
    Except.error "assertion failed: next_offset nonzero"
  else if it.next_offset = it.raw_data.bytes.length then
    Except.error "assertion failed: next_offset at end"
  else if ¬ it.next_offset ≤ 2 ^ 31 - 1 then
    Except.error "assertion failed: offset bound"
  else
    let offset := it.next_offset
    let header := it.raw_data.hdrAt offset
    let next_offset :=
      if it.cur_idx < it.count - 1 then offset + header.tp_next_offset
      else it.raw_data.bytes.length
    let it' := { it with cur_next_offset := some next_offset }
    let payload_offset := offset + header.tp_mac
    if ¬ payload_offset ≤ 2 ^ 31 - 1 then
      Except.error "assertion failed: payload offset bound"
    else
      Except.ok
        (some
          { header := header
            payload := it.raw_data.bytes.drop payload_offset }, it')

/-- `RawPacketIter::flush_current` from src/rx/mod.rs lines 479-488: when a
precomputed offset is pending, install it as `next_offset`, increment
`cur_idx`, clear the pending slot and return `some ()`; otherwise return
`none` and change nothing. -/
def RawPacketIter.flush_current (it : RawPacketIter) :
    Option Unit × RawPacketIter :=
  match it.cur_next_offset with
  | some next_offset =>
      (some (),
        { it with
            next_offset := next_offset
            cur_idx := it.cur_idx + 1
            cur_next_offset := none })
  | none => (none, it)

/-- `Iterator::next` for `RawPacketIter` from src/rx/mod.rs lines 490-500:
`current()` then, on success, `flush_current()`. -/
def RawPacketIter.next (it : RawPacketIter) :
    Except String (Option RawPacket × RawPacketIter) :=
  match it.current with
  | Except.error e => Except.error e
  | Except.ok (some res, it') => Except.ok (some res, (it'.flush_current).2)
  | Except.ok (none, it') => Except.ok (none, it')

/-- `Block::raw_packets_iter` from src/rx/mod.rs lines 391-402: a fresh
iterator over the block's data, starting at `offset_to_first_pkt` with
`count = num_pkts`. -/
def Block.raw_packets_iter (b : Block) : RawPacketIter :=
  { raw_data := b.raw_data
    next_offset := b.desc.hdr.offset_to_first_pkt
    count := b.desc.hdr.num_pkts
    cur_idx := 0
    cur_next_offset := none }

/-- `RawPacketsConsumingIter` from src/rx/mod.rs lines 502-520: the inner
iterator together with the block it will consume on drop. -/
structure RawPacketsConsumingIter where
  iter : RawPacketIter
  block : Block

/-- `Block::into_raw_packets_iter` from src/rx/mod.rs lines 405-419. -/
def Block.into_raw_packets_iter (b : Block) : RawPacketsConsumingIter :=
  { iter := b.raw_packets_iter, block := b }

/-- `Iterator::next` for `RawPacketsConsumingIter` (src/rx/mod.rs lines
510-515): delegates to the inner iterator; the block is untouched. -/
def RawPacketsConsumingIter.next (c : RawPacketsConsumingIter) :
    Except String (Option RawPacket × RawPacketsConsumingIter) :=
  match c.iter.next with
  | Except.error e => Except.error e
  | Except.ok (res, it') => Except.ok (res, { c with iter := it' })

/-- `RawPacketsConsumingIter::is_last` (src/rx/mod.rs lines 506-508). -/
def RawPacketsConsumingIter.is_last (c : RawPacketsConsumingIter) : Bool :=
  c.iter.is_last

/-- `impl Drop for RawPacketsConsumingIter` from src/rx/mod.rs lines
516-520: `self.1.consume()`, i.e. write `TP_STATUS_KERNEL` into the
block's status word.  Returns the block in its post-drop state. -/
def RawPacketsConsumingIter.dropIter (c : RawPacketsConsumingIter) : Block :=
  c.block.consume

/-- Iterate `RawPacketIter.next` up to `fuel` times, collecting the yielded
packets, stopping early at the first `none` (exhaustion) and propagating
assertion failures. -/
def runIter : RawPacketIter → Nat →
    Except String (List RawPacket × RawPacketIter)
  | it, 0 => Except.ok ([], it)
  | it, fuel + 1 =>
    match it.next with
    | Except.error e => Except.error e
    | Except.ok (none, it') => Except.ok ([], it')
    | Except.ok (some p, it') =>
      match runIter it' fuel with
      | Except.error e => Except.error e
      | Except.ok (ps, itF) => Except.ok (p :: ps, itF)

/-- The offset of the `k`-th packet record in a block whose first record is
at `first`: each subsequent record lies `tp_next_offset` bytes after the
previous one (the offset chain the iterator walks). -/
def offsetSeq (d : BlockData) (first : Nat) : Nat → Nat
  | 0 => first
  | k + 1 =>
    offsetSeq d first k + (d.hdrAt (offsetSeq d first k)).tp_next_offset

/-- The record offset `o` passes every assertion `RawPacketIter::current`
makes: nonzero, not at the end of the block data, and both it and the
derived payload offset within `i32::MAX`. -/
def offsetOk (d : BlockData) (o : Nat) : Bool :=
  decide (o ≠ 0) && decide (o ≠ d.bytes.length) &&
    decide (o ≤ 2 ^ 31 - 1) &&
    decide (o + (d.hdrAt o).tp_mac ≤ 2 ^ 31 - 1)

/-- The canonical iterator state after `i` complete `next` steps on a block
with data `d`, first record at `first` and `count` packets (for `i <
count`; after the last step the source installs the sentinel instead). -/
def iterAt (d : BlockData) (first count i : Nat) : RawPacketIter :=
  { raw_data := d
    next_offset := offsetSeq d first i
    cur_next_offset := none
    cur_idx := i
    count := count }

/-- The `RawPacket` the iterator yields for record `i`: the header decoded
at that record's offset, and the payload slice from `offset + tp_mac` to
the end of the block data. -/
def pkt (d : BlockData) (first i : Nat) : RawPacket :=
  { header := d.hdrAt (offsetSeq d first i)
    payload :=
      d.bytes.drop
        (offsetSeq d first i + (d.hdrAt (offsetSeq d first i)).tp_mac) }

/-- The packets yielded for records `i, i + 1, …, i + j - 1`. -/
def pkts (d : BlockData) (first : Nat) : Nat → Nat → List RawPacket
  | _, 0 => []
  | i, j + 1 => pkt d first i :: pkts d first (i + 1) j

/-- Cursor evolution under a run of checks: the final cursor is the initial
cursor plus the number of successful checks, modulo the block count, and the
block count is preserved. -/
theorem runChecks_cursor (B : Nat) (hB : 0 < B) :
    ∀ (envs : List (Nat → Nat)) (r : RingState), r.tp_block_nr = B →
      r.cur_idx < B →
      (runChecks r envs).2.cur_idx =
          (r.cur_idx + (runChecks r envs).1) % B ∧
        (runChecks r envs).2.tp_block_nr = B := by
  intro envs
  induction envs with
  | nil =>
    intro r hb hc
    simp [runChecks, Nat.mod_eq_of_lt hc, hb]
  | cons sts rest ih =>
    intro r hb hc
    by_cases hr : is_ready (sts r.cur_idx)
    · have hstep :
          check_current_block sts r =
            (some r.cur_idx, ⟨(r.cur_idx + 1) % B, B⟩) := by
        simp [check_current_block, hr, hb]
      have h1 : (r.cur_idx + 1) % B < B := Nat.mod_lt _ hB
      obtain ⟨ha, htb⟩ := ih ⟨(r.cur_idx + 1) % B, B⟩ rfl h1
      refine ⟨?_, ?_⟩
      · simp only [runChecks, hstep, Option.isSome_some, if_true]
        rw [ha]
        simp only [Nat.mod_add_mod]
        congr 1
        omega
      · simpa only [runChecks, hstep] using htb
    · have hstep : check_current_block sts r = (none, r) := by
        simp [check_current_block, hr]
      obtain ⟨ha, htb⟩ := ih r hb hc
      refine ⟨?_, ?_⟩
      · simp only [runChecks, hstep, Option.isSome_none, Bool.false_eq_true,
          if_false]
        rw [ha]
        congr 1
        omega
      · simpa only [runChecks, hstep] using htb

/-- C4: a check that finds the current block USER-owned hands it out and
advances the cursor by exactly one modulo `tp_block_nr`; a check that finds
it KERNEL-owned changes nothing; and starting from cursor 0, after any run
of checks containing `N` successful hand-outs the cursor equals
`N % tp_block_nr`. -/
theorem cursor_monotonicity (B : Nat) (hB : 0 < B) (sts : Nat → Nat)
    (r : RingState) (envs : List (Nat → Nat)) :
    (is_ready (sts r.cur_idx) = true →
      check_current_block sts r =
        (some r.cur_idx,
          { r with cur_idx := (r.cur_idx + 1) % r.tp_block_nr })) ∧
    (is_ready (sts r.cur_idx) = false →
      check_current_block sts r = (none, r)) ∧
    (runChecks ⟨0, B⟩ envs).2.cur_idx = (runChecks ⟨0, B⟩ envs).1 % B := by
  refine ⟨?_, ?_, ?_⟩
  · intro h; simp [check_current_block, h]
  · intro h; simp [check_current_block, h]
  · simpa using (runChecks_cursor B hB envs ⟨0, B⟩ rfl hB).1

/-- Witness for `cursor_monotonicity`: a ring of 2 blocks run through four
checks (ready, not ready, ready, ready): 3 hand-outs, cursor `3 % 2 = 1`. -/
theorem cursor_monotonicity_witness :
    (runChecks ⟨0, 2⟩
        [fun _ => 1, fun _ => 0, fun _ => 1, fun _ => 1]).2.cur_idx =
      (runChecks ⟨0, 2⟩
        [fun _ => 1, fun _ => 0, fun _ => 1, fun _ => 1]).1 % 2 :=
  (cursor_monotonicity 2 (by decide) (fun _ => 0) ⟨0, 2⟩
    [fun _ => 1, fun _ => 0, fun _ => 1, fun _ => 1]).2.2

/-- C1 (code-bug evidence): run the builder's setup with
`fanout_method = PACKET_FANOUT_LB`.  The fan-out id installed is
`pid & 0xFFFF | (PACKET_FANOUT_HASH << 16)` — its high 16 bits are
`PACKET_FANOUT_HASH`, not the configured load-balance mode: the builder's
`fanout_method` field is ignored by `prepare_socket`. -/
theorem fanout_id_ignores_configured_method :
    ({ promiscuous := true, fanout_method := PACKET_FANOUT_LB,
        opts := TpacketReq3.default } : RingBuilder).fanout_method =
      PACKET_FANOUT_LB ∧
    RingBuilder.prepare_socket
        { promiscuous := true, fanout_method := PACKET_FANOUT_LB,
          opts := TpacketReq3.default } 1234 =
      Except.ok
        { new_opts := TpacketReq3.default
          packet_version := TPACKET_V3
          fanout_id := 1234 } ∧
    (1234 : Nat) >>> 16 = PACKET_FANOUT_HASH ∧
    PACKET_FANOUT_HASH ≠ PACKET_FANOUT_LB :=
  ⟨rfl, rfl, by decide, by decide⟩

/-- C8: whenever the configured frame size is nonzero, setup succeeds and
the produced request's `tp_frame_nr` equals
`tp_block_size * tp_block_nr / tp_frame_size` computed over those very
fields of the produced request (which setup leaves unchanged), the u32
multiplication wrapping modulo `2 ^ 32`. -/
theorem frame_count_derivation (b : RingBuilder) (pid : Nat)
    (h : b.opts.tp_frame_size ≠ 0) :
    ∃ rec, RingBuilder.prepare_socket b pid = Except.ok rec ∧
      rec.new_opts.tp_frame_nr =
        rec.new_opts.tp_block_size * rec.new_opts.tp_block_nr % 2 ^ 32 /
          rec.new_opts.tp_frame_size ∧
      rec.new_opts.tp_block_size = b.opts.tp_block_size ∧
      rec.new_opts.tp_block_nr = b.opts.tp_block_nr ∧
      rec.new_opts.tp_frame_size = b.opts.tp_frame_size := by
  refine
    ⟨{ new_opts :=
        { b.opts with
            tp_frame_nr :=
              b.opts.tp_block_size * b.opts.tp_block_nr % 2 ^ 32 /
                b.opts.tp_frame_size }
       packet_version := TPACKET_V3
       fanout_id := (pid &&& 0xFFFF) ||| (PACKET_FANOUT_HASH <<< 16) },
      ?_, rfl, rfl, rfl, rfl⟩
  simp [RingBuilder.prepare_socket, h]

/-- Witness for `frame_count_derivation` at the default configuration and
pid 7. -/
theorem frame_count_derivation_witness :
    TpacketReq3.default.tp_frame_size ≠ 0 ∧
    ∃ rec,
      RingBuilder.prepare_socket
          { promiscuous := true, fanout_method := PACKET_FANOUT_HASH,
            opts := TpacketReq3.default } 7 =
        Except.ok rec ∧
      rec.new_opts.tp_frame_nr =
        rec.new_opts.tp_block_size * rec.new_opts.tp_block_nr % 2 ^ 32 /
          rec.new_opts.tp_frame_size ∧
      rec.new_opts.tp_block_size = TpacketReq3.default.tp_block_size ∧
      rec.new_opts.tp_block_nr = TpacketReq3.default.tp_block_nr ∧
      rec.new_opts.tp_frame_size = TpacketReq3.default.tp_frame_size :=
  ⟨by decide,
    frame_count_derivation
      { promiscuous := true, fanout_method := PACKET_FANOUT_HASH,
        opts := TpacketReq3.default } 7 (by decide)⟩

/-- C9 (counterexample): the socket opens (fd 3) but the name lookup fails
(`if_nametoindex` returns 0); `from_if_name` nevertheless returns a
`Socket`, with `if_index = 0`, not an error. -/
theorem from_if_name_ok_on_failed_lookup :
    Socket.from_if_name ⟨3, 0⟩ "eth0" 17 =
      Except.ok { fd := 3, if_name := "eth0", if_index := 0, sock_type := 17 } :=
  rfl

/-- C9 (amended): `from_if_name` errors exactly when `socket(2)` fails
(negative descriptor) or the interface name contains an interior NUL byte;
a failed `if_nametoindex` lookup is not detected — on the success path the
returned `Socket` carries whatever index the lookup produced, 0 included. -/
theorem from_if_name_error_cases (env : SysEnv) (name : String) (st : Int) :
    ((∃ e, Socket.from_if_name env name st = Except.error e) ↔
      env.socket_ret < 0 ∨ hasInteriorNul name = true) ∧
    (0 ≤ env.socket_ret → hasInteriorNul name = false →
      Socket.from_if_name env name st =
        Except.ok
          { fd := env.socket_ret
            if_name := name
            if_index := env.if_nametoindex_ret
            sock_type := st }) := by
  constructor
  · constructor
    · rintro ⟨e, he⟩
      by_cases h1 : env.socket_ret < 0
      · exact Or.inl h1
      · by_cases h2 : hasInteriorNul name
        · exact Or.inr h2
        · simp [Socket.from_if_name, get_if_index, h1, h2] at he
    · rintro (h1 | h2)
      · exact ⟨"os error", by simp [Socket.from_if_name, h1]⟩
      · by_cases h1 : env.socket_ret < 0
        · exact ⟨"os error", by simp [Socket.from_if_name, h1]⟩
        · exact ⟨"nul byte found in provided data",
            by simp [Socket.from_if_name, get_if_index, h1, h2]⟩
  · intro h1 h2
    simp [Socket.from_if_name, get_if_index, Int.not_lt.mpr h1, h2]

/-- Witness for `from_if_name_error_cases`: a failed `socket(2)` call
(return −1) yields an error. -/
theorem from_if_name_error_cases_witness :
    ∃ e, Socket.from_if_name ⟨-1, 5⟩ "eth0" 17 = Except.error e :=
  (from_if_name_error_cases ⟨-1, 5⟩ "eth0" 17).1.mpr (Or.inl (by decide))

/-- The iterator state after complete exhaustion of a block with `count`
packets: for `count = 0` the fresh iterator is already exhausted; otherwise
the last step installed the block data's length as the sentinel offset. -/
def endIter (d : BlockData) (first count : Nat) : RawPacketIter :=
  if count = 0 then iterAt d first 0 0
  else
    { raw_data := d
      next_offset := d.bytes.length
      cur_next_offset := none
      cur_idx := count
      count := count }

/-- `current` succeeds at any state whose record offset passes the four
assertions, yielding the header decoded at `next_offset`, the payload slice
from `next_offset + tp_mac` to the end of the data, and precomputing the
chained offset (the data length for the last record). -/
theorem current_success (it : RawPacketIter) (h1 : it.cur_idx < it.count)
    (h0 : it.next_offset ≠ 0)
    (hlen : it.next_offset ≠ it.raw_data.bytes.length)
    (hm : it.next_offset ≤ 2 ^ 31 - 1)
    (hp : it.next_offset + (it.raw_data.hdrAt it.next_offset).tp_mac ≤
      2 ^ 31 - 1) :
    it.current =
      Except.ok
        (some
          { header := it.raw_data.hdrAt it.next_offset
            payload :=
              it.raw_data.bytes.drop
                (it.next_offset + (it.raw_data.hdrAt it.next_offset).tp_mac) },
          { it with
              cur_next_offset :=
                some
                  (if it.cur_idx < it.count - 1 then
                    it.next_offset +
                      (it.raw_data.hdrAt it.next_offset).tp_next_offset
                  else it.raw_data.bytes.length) }) := by
  simp only [RawPacketIter.current]
  rw [if_neg (by omega), if_neg h0, if_neg hlen, if_neg (not_not_intro hm),
    if_neg (not_not_intro hp)]

/-- Inversion of a successful `current` call: the assertions held, the
packet is the one decoded at `next_offset`, and the state differs only in
the pending offset slot. -/
theorem current_ok_some_inv (it : RawPacketIter) (p : RawPacket)
    (it' : RawPacketIter) (hc : it.current = Except.ok (some p, it')) :
    it.cur_idx < it.count ∧ it.next_offset ≠ 0 ∧
    it.next_offset ≠ it.raw_data.bytes.length ∧
    it.next_offset ≤ 2 ^ 31 - 1 ∧
    it.next_offset + (it.raw_data.hdrAt it.next_offset).tp_mac ≤ 2 ^ 31 - 1 ∧
    p =
      { header := it.raw_data.hdrAt it.next_offset
        payload :=
          it.raw_data.bytes.drop
            (it.next_offset + (it.raw_data.hdrAt it.next_offset).tp_mac) } ∧
    it' =
      { it with
          cur_next_offset :=
            some
              (if it.cur_idx < it.count - 1 then
                it.next_offset +
                  (it.raw_data.hdrAt it.next_offset).tp_next_offset
              else it.raw_data.bytes.length) } := by
  simp only [RawPacketIter.current] at hc
  by_cases h1 : it.cur_idx ≥ it.count
  · rw [if_pos h1] at hc; simp at hc
  · rw [if_neg h1] at hc
    by_cases h0 : it.next_offset = 0
    · rw [if_pos h0] at hc; simp at hc
    · rw [if_neg h0] at hc
      by_cases hlen : it.next_offset = it.raw_data.bytes.length
      · rw [if_pos hlen] at hc; simp at hc
      · rw [if_neg hlen] at hc
        by_cases hm : it.next_offset ≤ 2 ^ 31 - 1
        · rw [if_neg (not_not_intro hm)] at hc
          by_cases hp :
              it.next_offset + (it.raw_data.hdrAt it.next_offset).tp_mac ≤
                2 ^ 31 - 1
          · rw [if_neg (not_not_intro hp)] at hc
            simp only [Except.ok.injEq, Prod.mk.injEq, Option.some.injEq]
              at hc
            exact ⟨by omega, h0, hlen, hm, hp, hc.1.symm, hc.2.symm⟩
          · rw [if_pos hp] at hc; simp at hc
        · rw [if_pos hm] at hc; simp at hc

/-- One `next` step at the canonical state for record `i`: it yields packet
`i` and moves to the canonical state for `i + 1`, except after the last
record, where the sentinel (the data length) is installed instead of the
chained offset. -/
theorem next_at (d : BlockData) (first count i : Nat) (hi : i < count)
    (hok : offsetOk d (offsetSeq d first i) = true) :
    (iterAt d first count i).next =
      Except.ok
        (some (pkt d first i),
          if i + 1 < count then iterAt d first count (i + 1)
          else
            { raw_data := d
              next_offset := d.bytes.length
              cur_next_offset := none
              cur_idx := i + 1
              count := count }) := by
  simp only [offsetOk, Bool.and_eq_true, decide_eq_true_eq] at hok
  obtain ⟨⟨⟨h0, hlen⟩, hm⟩, hp⟩ := hok
  have hcur :=
    current_success (iterAt d first count i) (by simpa [iterAt] using hi)
      (by simpa [iterAt] using h0) (by simpa [iterAt] using hlen)
      (by simpa [iterAt] using hm) (by simpa [iterAt] using hp)
  simp only [RawPacketIter.next, hcur, RawPacketIter.flush_current]
  by_cases h2 : i + 1 < count
  · have h3 : i < count - 1 := by omega
    simp [iterAt, h2, h3, pkt, offsetSeq]
  · have h3 : ¬ i < count - 1 := by omega
    simp [iterAt, h2, h3, pkt]

/-- The packets collected for `j` consecutive records are `j` in number. -/
theorem pkts_length (d : BlockData) (first : Nat) :
    ∀ j i, (pkts d first i j).length = j := by
  intro j
  induction j with
  | zero => intro i; rfl
  | succ j ih => intro i; simp [pkts, ih]

/-- One collected step of `runIter` past a successful `next`. -/
theorem runIter_succ (it : RawPacketIter) (p : RawPacket)
    (it' : RawPacketIter) (f : Nat)
    (h : it.next = Except.ok (some p, it')) :
    runIter it (f + 1) =
      Except.map (fun x => (p :: x.1, x.2)) (runIter it' f) := by
  simp only [runIter, h]
  cases hr : runIter it' f with
  | error e => rfl
  | ok x => obtain ⟨ps, itF⟩ := x; rfl

/-- Running the iterator from the canonical state for record `i` with
`j = count - i` records remaining (and fuel `j + 1`) collects exactly the
packets of records `i … count - 1` and ends in the exhausted state. -/
theorem runIter_at (d : BlockData) (first count : Nat)
    (hch : ∀ k, k < count → offsetOk d (offsetSeq d first k) = true) :
    ∀ j i, i + j = count →
      runIter (iterAt d first count i) (j + 1) =
        Except.ok
          (pkts d first i j,
            if j = 0 then iterAt d first count i
            else
              { raw_data := d
                next_offset := d.bytes.length
                cur_next_offset := none
                cur_idx := count
                count := count }) := by
  intro j
  induction j with
  | zero =>
    intro i hij
    have hi : i = count := by omega
    subst hi
    simp [runIter, RawPacketIter.next, RawPacketIter.current, iterAt, pkts]
  | succ j ih =>
    intro i hij
    have hi : i < count := by omega
    have hok := hch i hi
    have hnext := next_at d first count i hi hok
    by_cases hj : j = 0
    · subst hj
      have h2 : ¬ i + 1 < count := by omega
      have h3 : i + 1 = count := by omega
      rw [if_neg h2, h3] at hnext
      rw [runIter_succ _ _ _ _ hnext]
      have hend :
          runIter
            ({ raw_data := d
               next_offset := d.bytes.length
               cur_next_offset := none
               cur_idx := count
               count := count } : RawPacketIter) 1 =
            Except.ok
              ([],
                { raw_data := d
                  next_offset := d.bytes.length
                  cur_next_offset := none
                  cur_idx := count
                  count := count }) := by
        simp [runIter, RawPacketIter.next, RawPacketIter.current]
      rw [hend]
      simp [pkts, Except.map]
    · have h2 : i + 1 < count := by omega
      rw [if_pos h2] at hnext
      rw [runIter_succ _ _ _ (j + 1) hnext, ih (i + 1) (by omega)]
      simp [pkts, Except.map, hj]

/-- Header of the first record of the sample block: next record 24 bytes
further on, MAC header 8 bytes into the record. -/
def sampleHdrA : Tpacket3Hdr :=
  { tp_next_offset := 24, tp_sec := 0, tp_nsec := 0, tp_snaplen := 16
    tp_len := 16, tp_status := 1, tp_mac := 8, tp_net := 8
    hv1 := { tp_rxhash := 0, tp_vlan_tci := 0, tp_vlan_tpid := 0 } }

/-- Header of the second (last) record of the sample block. -/
def sampleHdrB : Tpacket3Hdr :=
  { tp_next_offset := 0, tp_sec := 0, tp_nsec := 0, tp_snaplen := 12
    tp_len := 12, tp_status := 1, tp_mac := 4, tp_net := 4
    hv1 := { tp_rxhash := 0, tp_vlan_tci := 0, tp_vlan_tpid := 0 } }

/-- Sample block data: 64 bytes, record offsets 16 and 40. -/
def sampleData : BlockData :=
  { bytes := List.range 64
    hdrAt := fun o => if o = 16 then sampleHdrA else sampleHdrB }

/-- A concrete 2-packet block (`num_pkts = 2`, `offset_to_first_pkt = 16`,
`blk_len = 64`), used to instantiate the iterator theorems. -/
def sampleBlock : Block :=
  { desc :=
      { version := 0
        offset_to_priv := 0
        hdr :=
          { block_status := 1
            num_pkts := 2
            offset_to_first_pkt := 16
            blk_len := 64
            seq_num := 0
            ts_first_pkt := { ts_sec := 0, ts_nsec := 0 }
            ts_last_pkt := { ts_sec := 0, ts_nsec := 0 } } }
    raw_data := sampleData }

/-- C5: for a block whose header says `num_pkts = n` and whose record chain
passes the iterator's assertions, iterating to exhaustion yields exactly the
`n` packets of the chain (`next` returns `some` exactly `n` times), the
exhausted iterator answers `none` thereafter, its `is_last` is true, and in
general `is_last` holds exactly when `cur_idx = count`. -/
theorem packet_iteration_total (b : Block) (n : Nat)
    (hn : b.desc.hdr.num_pkts = n)
    (hch : ∀ k, k < n →
      offsetOk b.raw_data
        (offsetSeq b.raw_data b.desc.hdr.offset_to_first_pkt k) = true) :
    runIter b.raw_packets_iter (n + 1) =
      Except.ok
        (pkts b.raw_data b.desc.hdr.offset_to_first_pkt 0 n,
          endIter b.raw_data b.desc.hdr.offset_to_first_pkt n) ∧
    (pkts b.raw_data b.desc.hdr.offset_to_first_pkt 0 n).length = n ∧
    (endIter b.raw_data b.desc.hdr.offset_to_first_pkt n).next =
      Except.ok
        (none, endIter b.raw_data b.desc.hdr.offset_to_first_pkt n) ∧
    (endIter b.raw_data b.desc.hdr.offset_to_first_pkt n).is_last = true ∧
    (∀ it : RawPacketIter, it.is_last = true ↔ it.cur_idx = it.count) := by
  have hiter : b.raw_packets_iter =
      iterAt b.raw_data b.desc.hdr.offset_to_first_pkt n 0 := by
    simp [Block.raw_packets_iter, iterAt, offsetSeq, hn]
  have hrun := runIter_at b.raw_data b.desc.hdr.offset_to_first_pkt n hch n 0
    (by omega)
  refine ⟨?_, pkts_length _ _ _ _, ?_, ?_, ?_⟩
  · rw [hiter, hrun]
    by_cases h0 : n = 0
    · subst h0; rfl
    · simp [h0, endIter]
  · by_cases h0 : n = 0
    · simp [endIter, h0, RawPacketIter.next, RawPacketIter.current, iterAt]
    · simp [endIter, h0, RawPacketIter.next, RawPacketIter.current]
  · by_cases h0 : n = 0
    · simp [endIter, h0, RawPacketIter.is_last, iterAt]
    · simp [endIter, h0, RawPacketIter.is_last]
  · intro it
    simp [RawPacketIter.is_last]

/-- Witness for `packet_iteration_total` on the concrete 2-packet sample
block. -/
theorem packet_iteration_total_witness :
    runIter sampleBlock.raw_packets_iter 3 =
      Except.ok
        (pkts sampleBlock.raw_data 16 0 2, endIter sampleBlock.raw_data 16 2) :=
  (packet_iteration_total sampleBlock 2 rfl (by decide)).1

/-- C6: the fresh iterator starts at the header's `offset_to_first_pkt`;
record `i + 1` lies at `offset(i) + tp_next_offset(i)`; and a `current`
call on record `i` precomputes exactly that chained offset — except for the
last record, where it installs the block's `blk_len` (the length of the
block's data) as the sentinel. -/
theorem offset_chaining (b : Block)
    (hlen : b.raw_data.bytes.length = b.desc.hdr.blk_len) (i : Nat)
    (hi : i < b.desc.hdr.num_pkts)
    (hok : offsetOk b.raw_data
      (offsetSeq b.raw_data b.desc.hdr.offset_to_first_pkt i) = true) :
    b.raw_packets_iter.next_offset = b.desc.hdr.offset_to_first_pkt ∧
    offsetSeq b.raw_data b.desc.hdr.offset_to_first_pkt (i + 1) =
      offsetSeq b.raw_data b.desc.hdr.offset_to_first_pkt i +
        (b.raw_data.hdrAt
          (offsetSeq b.raw_data b.desc.hdr.offset_to_first_pkt i)).tp_next_offset ∧
    (iterAt b.raw_data b.desc.hdr.offset_to_first_pkt b.desc.hdr.num_pkts
        i).current =
      Except.ok
        (some (pkt b.raw_data b.desc.hdr.offset_to_first_pkt i),
          { iterAt b.raw_data b.desc.hdr.offset_to_first_pkt
              b.desc.hdr.num_pkts i with
              cur_next_offset :=
                some
                  (if i < b.desc.hdr.num_pkts - 1 then
                    offsetSeq b.raw_data b.desc.hdr.offset_to_first_pkt
                      (i + 1)
                  else b.desc.hdr.blk_len) }) := by
  simp only [offsetOk, Bool.and_eq_true, decide_eq_true_eq] at hok
  obtain ⟨⟨⟨h0, hl⟩, hm⟩, hp⟩ := hok
  refine ⟨rfl, rfl, ?_⟩
  have hcur :=
    current_success
      (iterAt b.raw_data b.desc.hdr.offset_to_first_pkt b.desc.hdr.num_pkts i)
      (by simpa [iterAt] using hi) (by simpa [iterAt] using h0)
      (by simpa [iterAt] using hl) (by simpa [iterAt] using hm)
      (by simpa [iterAt] using hp)
  rw [hcur]
  simp [iterAt, pkt, offsetSeq, hlen]

/-- Witness for `offset_chaining` at record 0 of the sample block: the
precomputed next offset is the chained offset 40. -/
theorem offset_chaining_witness :
    (iterAt sampleBlock.raw_data sampleBlock.desc.hdr.offset_to_first_pkt
        sampleBlock.desc.hdr.num_pkts 0).current =
      Except.ok
        (some (pkt sampleBlock.raw_data
          sampleBlock.desc.hdr.offset_to_first_pkt 0),
          { iterAt sampleBlock.raw_data
              sampleBlock.desc.hdr.offset_to_first_pkt
              sampleBlock.desc.hdr.num_pkts 0 with
              cur_next_offset :=
                some
                  (if 0 < sampleBlock.desc.hdr.num_pkts - 1 then
                    offsetSeq sampleBlock.raw_data
                      sampleBlock.desc.hdr.offset_to_first_pkt 1
                  else sampleBlock.desc.hdr.blk_len) }) :=
  (offset_chaining sampleBlock rfl 0 (by decide) (by decide)).2.2

/-- C2 (amended): the packet yielded for record `i` has payload beginning
at `offset(i) + tp_mac` and running to the END of the block's data — also
for non-last records, whose payload therefore does not stop at the next
record's offset. -/
theorem payload_range (b : Block) (i : Nat)
    (hi : i < b.desc.hdr.num_pkts)
    (hok : offsetOk b.raw_data
      (offsetSeq b.raw_data b.desc.hdr.offset_to_first_pkt i) = true) :
    (iterAt b.raw_data b.desc.hdr.offset_to_first_pkt b.desc.hdr.num_pkts
        i).next =
      Except.ok
        (some (pkt b.raw_data b.desc.hdr.offset_to_first_pkt i),
          if i + 1 < b.desc.hdr.num_pkts then
            iterAt b.raw_data b.desc.hdr.offset_to_first_pkt
              b.desc.hdr.num_pkts (i + 1)
          else
            { raw_data := b.raw_data
              next_offset := b.raw_data.bytes.length
              cur_next_offset := none
              cur_idx := i + 1
              count := b.desc.hdr.num_pkts }) ∧
    (pkt b.raw_data b.desc.hdr.offset_to_first_pkt i).payload =
      b.raw_data.bytes.drop
        (offsetSeq b.raw_data b.desc.hdr.offset_to_first_pkt i +
          (b.raw_data.hdrAt
            (offsetSeq b.raw_data b.desc.hdr.offset_to_first_pkt i)).tp_mac) ∧
    (pkt b.raw_data b.desc.hdr.offset_to_first_pkt i).payload.length =
      b.raw_data.bytes.length -
        (offsetSeq b.raw_data b.desc.hdr.offset_to_first_pkt i +
          (b.raw_data.hdrAt
            (offsetSeq b.raw_data b.desc.hdr.offset_to_first_pkt
              i)).tp_mac) := by
  refine ⟨next_at b.raw_data b.desc.hdr.offset_to_first_pkt
    b.desc.hdr.num_pkts i hi hok, rfl, ?_⟩
  simp [pkt]

/-- Witness for `payload_range` at record 0 of the sample block: the
payload is the final 40 bytes (from offset 16 + 8 = 24 to the end, 64). -/
theorem payload_range_witness :
    (pkt sampleBlock.raw_data sampleBlock.desc.hdr.offset_to_first_pkt
        0).payload.length =
      sampleBlock.raw_data.bytes.length -
        (offsetSeq sampleBlock.raw_data
            sampleBlock.desc.hdr.offset_to_first_pkt 0 +
          (sampleBlock.raw_data.hdrAt
            (offsetSeq sampleBlock.raw_data
              sampleBlock.desc.hdr.offset_to_first_pkt 0)).tp_mac) :=
  (payload_range sampleBlock 0 (by decide) (by decide)).2.2

/-- C2 (counterexample): on the sample block, record 0's payload starts at
offset 24 and the next record lies at offset 40, so the claim predicts a
payload of `40 − 24 = 16` bytes; the code yields the slice running to the
block end — 40 bytes. -/
theorem payload_not_bounded_by_next_record :
    Except.map (fun r => r.1.map fun p => p.payload.length)
        sampleBlock.raw_packets_iter.next =
      Except.ok (some 40) ∧
    offsetSeq sampleBlock.raw_data 16 1 = 40 ∧
    offsetSeq sampleBlock.raw_data 16 0 +
        (sampleBlock.raw_data.hdrAt
          (offsetSeq sampleBlock.raw_data 16 0)).tp_mac = 24 ∧
    (40 : Nat) ≠ 40 - 24 :=
  ⟨rfl, rfl, rfl, by decide⟩

/-- C7: dropping a consuming iterator — whatever its iteration state —
writes `TP_STATUS_KERNEL` into its block's status word (in particular for
any iterator freshly produced by `into_raw_packets_iter`); and `next` never
touches the block, so the status word is unchanged while the iterator
lives. -/
theorem block_ownership_exchange (b : Block) (c c' : RawPacketsConsumingIter)
    (r : Option RawPacket) (h : c.next = Except.ok (r, c')) :
    ((b.into_raw_packets_iter).dropIter).desc.hdr.block_status =
      TP_STATUS_KERNEL ∧
    (c.dropIter).desc.hdr.block_status = TP_STATUS_KERNEL ∧
    c'.block = c.block := by
  refine ⟨rfl, rfl, ?_⟩
  unfold RawPacketsConsumingIter.next at h
  cases hn : c.iter.next with
  | error e => rw [hn] at h; simp at h
  | ok x =>
    obtain ⟨res, it'⟩ := x
    rw [hn] at h
    simp only [Except.ok.injEq, Prod.mk.injEq] at h
    rw [← h.2]

/-- Witness for `block_ownership_exchange`: one `next` step on the sample
block's consuming iterator leaves the block untouched, and dropping it
resets the status word to `TP_STATUS_KERNEL`. -/
theorem block_ownership_exchange_witness :
    ((sampleBlock.into_raw_packets_iter).dropIter).desc.hdr.block_status =
      TP_STATUS_KERNEL ∧
    ({ iter := iterAt sampleBlock.raw_data 16 2 1, block := sampleBlock } :
        RawPacketsConsumingIter).block =
      (sampleBlock.into_raw_packets_iter).block :=
  ⟨(block_ownership_exchange sampleBlock sampleBlock.into_raw_packets_iter
      { iter := iterAt sampleBlock.raw_data 16 2 1, block := sampleBlock }
      (some (pkt sampleBlock.raw_data 16 0)) rfl).1,
    (block_ownership_exchange sampleBlock sampleBlock.into_raw_packets_iter
      { iter := iterAt sampleBlock.raw_data 16 2 1, block := sampleBlock }
      (some (pkt sampleBlock.raw_data 16 0)) rfl).2.2⟩

/-- C10: after a successful `current`, the iterator's `next_offset`,
`cur_idx` and `count` are unchanged, a repeated `current` returns the same
packet and the same state (so `current` is idempotent until a flush);
`flush_current` then advances `cur_idx` by one and installs the precomputed
offset; and with no pending `current` result, `flush_current` returns
`none` and changes nothing. -/
theorem current_flush_protocol (it : RawPacketIter) (p : RawPacket)
    (it' : RawPacketIter) (hc : it.current = Except.ok (some p, it')) :
    it'.next_offset = it.next_offset ∧ it'.cur_idx = it.cur_idx ∧
    it'.count = it.count ∧
    it'.current = Except.ok (some p, it') ∧
    it'.flush_current =
      (some (),
        { it with
            next_offset :=
              if it.cur_idx < it.count - 1 then
                it.next_offset +
                  (it.raw_data.hdrAt it.next_offset).tp_next_offset
              else it.raw_data.bytes.length
            cur_idx := it.cur_idx + 1
            cur_next_offset := none }) ∧
    (∀ j : RawPacketIter, j.cur_next_offset = none →
      j.flush_current = (none, j)) := by
  obtain ⟨h1, h0, hlen, hm, hp, hpkt, hit⟩ := current_ok_some_inv it p it' hc
  subst hpkt
  subst hit
  refine ⟨rfl, rfl, rfl, ?_, rfl, ?_⟩
  · exact current_success _ h1 h0 hlen hm hp
  · intro j hj
    simp [RawPacketIter.flush_current, hj]

/-- Witness for `current_flush_protocol`: `current` at record 0 of the
sample block is idempotent. -/
theorem current_flush_protocol_witness :
    ({ raw_data := sampleData, next_offset := 16,
        cur_next_offset := some 40, cur_idx := 0, count := 2 } :
          RawPacketIter).current =
      Except.ok
        (some (pkt sampleBlock.raw_data 16 0),
          { raw_data := sampleData, next_offset := 16,
            cur_next_offset := some 40, cur_idx := 0, count := 2 }) :=
  (current_flush_protocol sampleBlock.raw_packets_iter
    (pkt sampleBlock.raw_data 16 0)
    { raw_data := sampleData, next_offset := 16, cur_next_offset := some 40,
      cur_idx := 0, count := 2 } rfl).2.2.2.1

/-- Closed form of the saturation loop: with fuel covering the remaining
distance to `B`, the loop returns
`min (n + step * (probes + 1)) B`, where `probes` counts the consecutive
ready blocks at stride `step` from `idx` — the counter is bumped once more
on the probe that stops the scan (or that reaches the cap). -/
theorem satLoop_eq (sts : Nat → Nat) (B step : Nat) (hstep : 1 ≤ step) :
    ∀ f n idx, n < B → B ≤ n + f →
      satLoop sts B step f n idx =
        min (n + step * (probeCount sts B step idx (f - 1) + 1)) B := by
  intro f
  induction f with
  | zero => intro n idx h1 h2; omega
  | succ f ih =>
    intro n idx h1 h2
    have hmul : step ≤ step *
        (probeCount sts B step idx (f + 1 - 1) + 1) := by
      calc step = step * 1 := by omega
        _ ≤ step * (probeCount sts B step idx (f + 1 - 1) + 1) :=
            Nat.mul_le_mul_left step (by omega)
    simp only [satLoop]
    rw [if_pos h1]
    by_cases hr : is_ready (sts idx)
    · rw [if_pos hr]
      by_cases hcap : n + step > B
      · rw [if_pos hcap]
        have hB : satLoop sts B step f B ((idx + step) % 2 ^ 32 % B) = B := by
          cases f with
          | zero => rfl
          | succ f' => simp [satLoop]
        rw [hB]
        omega
      · rw [if_neg hcap]
        by_cases heq : n + step = B
        · have hB : satLoop sts B step f (n + step)
              ((idx + step) % 2 ^ 32 % B) = B := by
            rw [heq]
            cases f with
            | zero => rfl
            | succ f' => simp [satLoop]
          rw [hB]
          omega
        · have hlt : n + step < B := by omega
          have hf : B ≤ n + step + f := by omega
          rw [ih (n + step) ((idx + step) % 2 ^ 32 % B) hlt hf]
          have hf1 : 1 ≤ f := by omega
          obtain ⟨f', rfl⟩ : ∃ f', f = f' + 1 := ⟨f - 1, by omega⟩
          have hpc : probeCount sts B step idx (f' + 1 + 1 - 1) =
              probeCount sts B step ((idx + step) % 2 ^ 32 % B)
                (f' + 1 - 1) + 1 := by
            simp [probeCount, hr]
          rw [hpc]
          congr 1
          ring
    · rw [if_neg hr]
      have hpc : probeCount sts B step idx (f + 1 - 1) = 0 := by
        cases f with
        | zero => rfl
        | succ f' => simp [probeCount, hr]
      rw [hpc]
      have h3 : step * (0 + 1) = step := by ring
      rw [h3]
      by_cases hc2 : n + step > B
      · rw [if_pos hc2]; omega
      · rw [if_neg hc2]; omega

/-- C3 (amended): under the precondition `step_percent < 50`, with a
nonempty ring small enough that the u32 arithmetic is exact
(`tp_block_nr * 100 < 2 ^ 32`), `buffer_saturation_threshold` returns
`min ((count + 1) * step, tp_block_nr) * 100 / tp_block_nr`, where
`step = max(1, tp_block_nr * step_percent / 100)` and `count` is the number
of consecutive USER-owned probes at stride `step` starting from
`cursor + step` — one more stride than the claim's `count * step`:
in particular the result is `step * 100 / tp_block_nr`, not 0, when the
first probed block is KERNEL-owned. -/
theorem buffer_saturation_formula (sts : Nat → Nat) (r : RingState)
    (p : Nat) (hp : p < 50) (hB : 0 < r.tp_block_nr)
    (hsmall : r.tp_block_nr * 100 < 2 ^ 32) :
    buffer_saturation_threshold sts r p =
      Except.ok
        (min
          (satStep r.tp_block_nr p *
            (probeCount sts r.tp_block_nr (satStep r.tp_block_nr p)
                ((r.cur_idx + satStep r.tp_block_nr p) % 2 ^ 32 %
                  r.tp_block_nr)
                (r.tp_block_nr - 1) + 1))
          r.tp_block_nr * 100 / r.tp_block_nr) := by
  have hstep : 1 ≤ satStep r.tp_block_nr p := by
    simp only [satStep]
    split <;> omega
  have hmain := satLoop_eq sts r.tp_block_nr (satStep r.tp_block_nr p) hstep
    r.tp_block_nr 0
    ((r.cur_idx + satStep r.tp_block_nr p) % 2 ^ 32 % r.tp_block_nr) hB
    (by omega)
  rw [Nat.zero_add] at hmain
  simp only [buffer_saturation_threshold]
  rw [if_neg (by omega), hmain]
  have hm : min
      (satStep r.tp_block_nr p *
        (probeCount sts r.tp_block_nr (satStep r.tp_block_nr p)
            ((r.cur_idx + satStep r.tp_block_nr p) % 2 ^ 32 % r.tp_block_nr)
            (r.tp_block_nr - 1) + 1))
      r.tp_block_nr ≤ r.tp_block_nr := Nat.min_le_right _ _
  have h1 : min
      (satStep r.tp_block_nr p *
        (probeCount sts r.tp_block_nr (satStep r.tp_block_nr p)
            ((r.cur_idx + satStep r.tp_block_nr p) % 2 ^ 32 % r.tp_block_nr)
            (r.tp_block_nr - 1) + 1))
      r.tp_block_nr * 100 < 2 ^ 32 := by
    calc _ ≤ r.tp_block_nr * 100 := Nat.mul_le_mul_right 100 hm
      _ < 2 ^ 32 := hsmall
  rw [Nat.mod_eq_of_lt h1]
  have h2 : min
      (satStep r.tp_block_nr p *
        (probeCount sts r.tp_block_nr (satStep r.tp_block_nr p)
            ((r.cur_idx + satStep r.tp_block_nr p) % 2 ^ 32 % r.tp_block_nr)
            (r.tp_block_nr - 1) + 1))
      r.tp_block_nr * 100 / r.tp_block_nr < 2 ^ 8 := by
    have hle : min
        (satStep r.tp_block_nr p *
          (probeCount sts r.tp_block_nr (satStep r.tp_block_nr p)
              ((r.cur_idx + satStep r.tp_block_nr p) % 2 ^ 32 %
                r.tp_block_nr)
              (r.tp_block_nr - 1) + 1))
        r.tp_block_nr * 100 / r.tp_block_nr ≤
          r.tp_block_nr * 100 / r.tp_block_nr :=
      Nat.div_le_div_right (Nat.mul_le_mul_right 100 hm)
    have heq : r.tp_block_nr * 100 / r.tp_block_nr = 100 := by
      rw [Nat.mul_div_cancel_left 100 hB]
    omega
  rw [Nat.mod_eq_of_lt h2]

/-- C3 (counterexample): 4 blocks, `step_percent = 25` (stride 1), cursor 0,
every block KERNEL-owned.  The first probe already fails, so the claim's
`min(count * step, block_count) * 100 / block_count` is 0 — but the code
returns 25, because the loop adds a stride to `n` before probing. -/
theorem buffer_saturation_nonzero_on_kernel_first_probe :
    buffer_saturation_threshold (fun _ => 0) ⟨0, 4⟩ 25 = Except.ok 25 ∧
    min (0 * satStep 4 25) 4 * 100 / 4 = 0 ∧
    (25 : Nat) ≠ 0 :=
  ⟨rfl, rfl, by decide⟩

/-- Witness for `buffer_saturation_formula`: the all-KERNEL 4-block ring at
`step_percent = 25` evaluates the formula (to 25). -/
theorem buffer_saturation_formula_witness :
    buffer_saturation_threshold (fun _ => 0) ⟨0, 4⟩ 25 =
      Except.ok
        (min
          (satStep 4 25 *
            (probeCount (fun _ => 0) 4 (satStep 4 25)
                ((0 + satStep 4 25) % 2 ^ 32 % 4) (4 - 1) + 1))
          4 * 100 / 4) :=
  buffer_saturation_formula (fun _ => 0) ⟨0, 4⟩ 25 (by decide) (by decide)
    (by decide)

end AFPacket
